import Mathlib

/-!
Shallow embedding of `add_bit.py`: an interactive CLI that structures freeform
text into a "bit" record via an API call, lets the user review the record in an
external editor (with a parse/retry loop), and prepends the confirmed record to
the JSON store `data/bits.json` before triggering a site rebuild.

External behavior (editor results, API responses, user answers at prompts, the
clock, the store file contents) is passed in explicitly as environment data;
everything the Python code itself computes is translated directly from the
source.
-/

/-- JSON values, as manipulated by the Python program after `json.loads`.
Objects are association lists in insertion order, matching Python dicts
(which never hold duplicate keys). -/
inductive JValue where
  | null : JValue
  | bool : Bool → JValue
  | num : Int → JValue
  | str : String → JValue
  | arr : List JValue → JValue
  | obj : List (String × JValue) → JValue

/-- Python truthiness of a JSON value: `not bit[key]` is true exactly on these. -/
def falsy : JValue → Bool
  | .null => true
  | .bool b => !b
  | .num n => n == 0
  | .str s => s == ""
  | .arr xs => xs.isEmpty
  | .obj kvs => kvs.isEmpty

/-- Dictionary lookup `kvs[k]`, first matching key. -/
def objLookup : List (String × JValue) → String → Option JValue
  | [], _ => none
  | (k', v) :: rest, k => if k' = k then some v else objLookup rest k

/-- Dictionary assignment `kvs[k] = v`: replace the value in place if the key
exists (keeping its position), otherwise append the new entry at the end,
matching Python dict insertion-order semantics. -/
def objSet : List (String × JValue) → String → JValue → List (String × JValue)
  | [], k, v => [(k, v)]
  | (k', v') :: rest, k, v =>
    if k' = k then (k, v) :: rest else (k', v') :: objSet rest k v

/-- Dictionary deletion `del kvs[k]` (keys are unique in a Python dict, so
filtering every matching entry coincides with deleting the one entry). -/
def delKey (kvs : List (String × JValue)) (k : String) : List (String × JValue) :=
  kvs.filter fun p => !(p.1 == k)

/-! ## slugify -/

/-- Characters kept by the slug: the class `[a-z0-9]` of the regex. -/
def isAlnumLower (c : Char) : Bool :=
  ('a' ≤ c && c ≤ 'z') || ('0' ≤ c && c ≤ '9')

/-- The substitution `re.sub(r"[^a-z0-9]+", "-", text)`: every maximal run of
characters outside `[a-z0-9]` becomes a single hyphen. `inRun` records whether
the previous character belonged to such a run (its hyphen already emitted). -/
def collapseRuns (inRun : Bool) : List Char → List Char
  | [] => []
  | c :: cs =>
    if isAlnumLower c then c :: collapseRuns false cs
    else if inRun then collapseRuns true cs
    else '-' :: collapseRuns true cs

/-- Half of `re.sub(r"^-|-$", "", text)`: remove one leading hyphen. -/
def dropLeadHyphen : List Char → List Char
  | [] => []
  | c :: r => if c = '-' then r else c :: r

/-- Other half of `re.sub(r"^-|-$", "", text)`: remove one trailing hyphen.
The regex replaces the (at most one) match of `^-` and the (at most one)
match of `-$`, which is exactly one leading and one trailing hyphen. -/
def dropTrailHyphen (l : List Char) : List Char :=
  match l.getLast? with
  | some c => if c = '-' then l.dropLast else l
  | none => l

/-- `slugify` from the source: lowercase, collapse non-`[a-z0-9]` runs to a
hyphen, trim one leading and one trailing hyphen, then truncate to 50
characters (`text[:50]`). `Char.toLower` models `str.lower` (they agree on
ASCII; non-ASCII letters are outside `[a-z0-9]` either way and collapse to a
hyphen). -/
def slugify (text : String) : String :=
  let t1 := text.toList.map Char.toLower
  let t2 := collapseRuns false t1
  let t3 := dropTrailHyphen (dropLeadHyphen t2)
  ⟨t3.take 50⟩

/-! ## Decimal rendering, as Python `str(int)` / f-string formatting -/

/-- The decimal digit characters. Only ever applied to values below ten. -/
def digitChar10 : Nat → Char
  | 0 => '0' | 1 => '1' | 2 => '2' | 3 => '3' | 4 => '4'
  | 5 => '5' | 6 => '6' | 7 => '7' | 8 => '8' | _ => '9'

/-- Decimal digits of a natural number by repeated division; fuel-indexed to
keep the recursion structural. Any fuel above the digit count is enough. -/
def natDigitsAux : Nat → Nat → List Char
  | 0, _ => []
  | fuel + 1, n =>
    if n < 10 then [digitChar10 n]
    else natDigitsAux fuel (n / 10) ++ [digitChar10 (n % 10)]

/-- `str(n)` for a natural number (`n + 1` units of fuel always suffice). -/
def natDecimal (n : Nat) : String := ⟨natDigitsAux (n + 1) n⟩

/-- Decimal digit test, the regex class `\d`. -/
def isDigitCh (c : Char) : Bool := '0' ≤ c && c ≤ '9'

/-! ## Python string helpers used at prompts -/

/-- Whitespace stripped by Python `str.strip()` (the ASCII whitespace class;
the prompts at issue only ever see ASCII answers). -/
def isPySpace (c : Char) : Bool :=
  c == ' ' || c == '\t' || c == '\n' || c == '\r' || c == '\x0b' || c == '\x0c'

/-- Python `s.strip()`. -/
def pyStrip (s : String) : String :=
  ⟨((s.toList.dropWhile isPySpace).reverse.dropWhile isPySpace).reverse⟩

/-- Python `s.strip().lower()`, as applied to the yes/no prompt answers. -/
def pyStripLower (s : String) : String :=
  ⟨((pyStrip s).toList.map Char.toLower)⟩

/-! ## The edit/validate loop: `open_in_editor` -/

/-- One round of the loop, i.e. the environment of one invocation: whether the
editor subprocess exited successfully (`subprocess.run(..., check=True)`), what
the edited temp file parses to under `json.loads` (`none` models a
`json.JSONDecodeError`), and the raw answer typed at the `Re-edit? [Y/n]`
prompt (consulted only on a parse failure). -/
structure Round where
  editorOk : Bool
  edited : Option JValue
  retryAnswer : String

/-- How one invocation of `open_in_editor` ends. `outOfRounds` is a model
artifact: the environment list was exhausted while the program is still
blocked waiting on the editor or the user. -/
inductive EditOutcome where
  | confirmed : JValue → EditOutcome
  | aborted : EditOutcome
  | editorFailed : EditOutcome
  | outOfRounds : EditOutcome

/-- Temp-file events, for the cleanup claims. `create d v` records that the
invocation at recursion depth `d` created its uniquely named temp file and
wrote the serialization of draft `v` into it; `unlink d` records
`os.unlink` of that file. -/
inductive TempEvent where
  | create : Nat → JValue → TempEvent
  | unlink : Nat → TempEvent

/-- `open_in_editor(data)` from the source, returning how the loop ends
together with the trace of temp-file events. Each invocation consumes one
`Round`. On a parse failure followed by anything but an `n` answer, the code
recurses with `json.loads(json_str)` where `json_str = json.dumps(data)`:
that round-trips to `data` itself, so the recursion receives the original
draft. `os.unlink(temp_path)` sits in a `finally:` block, so it runs once the
`try:` body has finished — including after the recursive call inside it has
fully returned or raised; if the inner invocation never finishes (exhausted
environment), the pending `finally:` blocks of the outer frames have not run,
so their unlink events are not recorded. -/
def open_in_editor (data : JValue) : List Round → Nat → EditOutcome × List TempEvent
  | [], d => (.outOfRounds, [.create d data])
  | r :: rest, d =>
    if r.editorOk then
      match r.edited with
      | some v => (.confirmed v, [.create d data, .unlink d])
      | none =>
        if pyStripLower r.retryAnswer = "n" then
          (.aborted, [.create d data, .unlink d])
        else
          let res := open_in_editor data rest (d + 1)
          match res.1 with
          | .outOfRounds => (.outOfRounds, .create d data :: res.2)
          | o => (o, .create d data :: res.2 ++ [.unlink d])
    else (.editorFailed, [.create d data, .unlink d])

/-! ## The structuring client: `structure_with_claude` -/

/-- A content block of the API response. The code only inspects whether a
block is a `tool_use` block, and if so takes its `input`. -/
inductive Block where
  | toolUse : JValue → Block
  | other : Block

/-- The `for block in message.content: if block.type == "tool_use": return
block.input` scan. -/
def firstToolUse : List Block → Option JValue
  | [] => none
  | .toolUse v :: _ => some v
  | .other :: rest => firstToolUse rest

/-- The Python exceptions that can escape the modelled fragments. -/
inductive PyErr where
  | apiError : PyErr
  | valueError : PyErr
  | calledProcessError : PyErr
  | systemExit : String → PyErr
  | keyError : String → PyErr
  | typeError : PyErr
  | attributeError : PyErr
  | fileError : PyErr
deriving DecidableEq

/-- `structure_with_claude(text)`: the API call either raises (network, auth,
rate limit — `resp = .error ()`) or yields a list of content blocks; the code
returns the first `tool_use` input unvalidated and raises `ValueError` when
there is none. The output never depends on `text` beyond what the external
model chose to answer. -/
def structure_with_claude (text : String) (resp : Except Unit (List Block)) :
    Except PyErr JValue :=
  match resp with
  | .error _ => .error .apiError
  | .ok blocks =>
    match firstToolUse blocks with
    | some v => .ok v
    | none => .error .valueError

/-! ## The store appender: `add_bit` -/

/-- A calendar date, the input to `time.strftime("%Y-%m-%d")`. -/
structure Date where
  year : Nat
  month : Nat
  day : Nat

/-- `%m` / `%d`: zero-padded to two digits. -/
def pad2 (n : Nat) : String := if n < 10 then "0" ++ natDecimal n else natDecimal n

/-- `time.strftime("%Y-%m-%d")` on a given date. -/
def strftimeYmd (d : Date) : String :=
  natDecimal d.year ++ "-" ++ pad2 d.month ++ "-" ++ pad2 d.day

/-- The `del`-if-falsy step for one key:
`if key in bit and not bit[key]: del bit[key]`. -/
def stripKeyIfFalsy (kvs : List (String × JValue)) (k : String) :
    List (String × JValue) :=
  match objLookup kvs k with
  | some v => if falsy v then delKey kvs k else kvs
  | none => kvs

/-- The whole empty-field stripping step of `add_bit`: `url`, `content`, `via`
are dropped when present but falsy, then `tags` when present but empty. -/
def stripEmpty (kvs : List (String × JValue)) : List (String × JValue) :=
  stripKeyIfFalsy (stripKeyIfFalsy (stripKeyIfFalsy (stripKeyIfFalsy kvs "url")
    "content") "via") "tags"

/-- The metadata/stripping block of `add_bit` applied to a bit whose `title`
is the string `t`: assign `bit["id"]` and `bit["date"]`, then strip the empty
optional fields. `nowMs` is `int(time.time() * 1000)`. -/
def finalizeBit (kvs : List (String × JValue)) (t : String) (nowMs : Nat)
    (today : Date) : List (String × JValue) :=
  let k1 := objSet kvs "id" (.str (slugify t ++ "-" ++ natDecimal nowMs))
  let k2 := objSet k1 "date" (.str (strftimeYmd today))
  stripEmpty k2

/-- Externally visible effects of `add_bit`: the rewrite of `data/bits.json`
with a full new list, and the launch of the rebuild subprocess. -/
inductive Effect where
  | writeStore : List JValue → Effect
  | rebuildRun : Effect

/-- True exactly on store writes. -/
def isWrite : Effect → Bool
  | .writeStore _ => true
  | .rebuildRun => false

/-- `add_bit(bit)` from the source. `storeFile` is what `json.load` of
`data/bits.json` yields (`.error ()` models a missing or corrupt store, whose
exception propagates uncaught). The code then evaluates
`slugify(bit["title"])`: subscripting a non-dict raises `TypeError`, a missing
key raises `KeyError`, and `.lower()` on a non-string title raises
`AttributeError` — each before anything is written. On the happy path the new
list (finalized bit prepended via `bits.insert(0, bit)`) is written back, and
the rebuild subprocess runs, its failure propagating after the write. -/
def add_bit (storeFile : Except Unit (List JValue)) (bit : JValue)
    (nowMs : Nat) (today : Date) (rebuildOk : Bool) :
    Except PyErr Unit × List Effect :=
  match storeFile with
  | .error _ => (.error .fileError, [])
  | .ok bits =>
    match bit with
    | .obj kvs =>
      match objLookup kvs "title" with
      | some (.str t) =>
        let record := JValue.obj (finalizeBit kvs t nowMs today)
        let newBits := record :: bits
        if rebuildOk then (.ok (), [.writeStore newBits, .rebuildRun])
        else (.error .calledProcessError, [.writeStore newBits, .rebuildRun])
      | some _ => (.error .attributeError, [])
      | none => (.error (.keyError "title"), [])
    | _ => (.error .typeError, [])

/-! ## The driver: `main` -/

/-- The environment of one run: whether `ANTHROPIC_API_KEY` is set (and
non-empty), the collected stdin text, the API response, the editor rounds,
the store file contents, the answer at the final `Add this bit? [Y/n]`
prompt, the clock readings, and whether the rebuild subprocess succeeds. -/
structure Env where
  apiKeyPresent : Bool
  inputText : String
  claudeResp : Except Unit (List Block)
  rounds : List Round
  storeFile : Except Unit (List JValue)
  confirmAnswer : String
  nowMs : Nat
  today : Date
  rebuildOk : Bool

/-- How the process ends. `sys.exit(n)` and falling off the end of `main`
give `exited`; an exception that reaches the top level gives `uncaught`;
`blocked` is the model artifact for an exhausted environment. -/
inductive Term where
  | exited : Nat → Term
  | uncaught : PyErr → Term
  | blocked : Term
deriving DecidableEq

/-- The process exit status CPython reports for a termination. An uncaught
exception — including `SystemExit` whose argument is a string such as
`"Aborted"`, which CPython prints to stderr — terminates the process with
status 1. -/
def exitCodeOf : Term → Option Nat
  | .exited n => some n
  | .uncaught _ => some 1
  | .blocked => none

/-- `main()` from the source (named `mainRun` here because Lean reserves `main` for executable entry points): check the API key (`sys.exit(1)` if unset),
collect input (`sys.exit(0)` when blank after `strip()`), structure it —
`except Exception` around the call turns any failure into `sys.exit(1)` —
run the edit loop (whose `CalledProcessError` or `SystemExit("Aborted")`
propagate uncaught), show the final bit and ask for confirmation
(`sys.exit(0)` on an `n` answer), then call `add_bit`. -/
def mainRun (env : Env) : Term × List Effect :=
  if env.apiKeyPresent then
    if pyStrip env.inputText = "" then (.exited 0, [])
    else
      match structure_with_claude env.inputText env.claudeResp with
      | .error _ => (.exited 1, [])
      | .ok bit0 =>
        match (open_in_editor bit0 env.rounds 0).1 with
        | .editorFailed => (.uncaught .calledProcessError, [])
        | .aborted => (.uncaught (.systemExit "Aborted"), [])
        | .outOfRounds => (.blocked, [])
        | .confirmed bit =>
          if pyStripLower env.confirmAnswer = "n" then (.exited 0, [])
          else
            match add_bit env.storeFile bit env.nowMs env.today env.rebuildOk with
            | (.ok _, effs) => (.exited 0, effs)
            | (.error e, effs) => (.uncaught e, effs)
  else (.exited 1, [])


/-! ## Trace and matcher helpers used by the theorems -/

/-- Live temp files: a create pushes the file id, an unlink removes it. -/
def liveStep (acc : List Nat) : TempEvent → List Nat
  | .create n _ => n :: acc
  | .unlink n => acc.erase n

/-- The temp files still on disk after a trace of events. -/
def liveAfter (t : List TempEvent) : List Nat := t.foldl liveStep []

/-- True exactly on the create event of the invocation at depth `k`. -/
def isCreateAt (k : Nat) : TempEvent → Bool
  | .create n _ => n == k
  | .unlink _ => false

/-- True exactly on the unlink event of the invocation at depth `k`. -/
def isUnlinkAt (k : Nat) : TempEvent → Bool
  | .unlink n => n == k
  | .create _ _ => false

/-- The regex `\d{4}-\d{2}-\d{2}` as a Boolean matcher. -/
def matchesYmd (s : String) : Bool :=
  match s.toList with
  | [y1, y2, y3, y4, s1, m1, m2, s2, d1, d2] =>
    isDigitCh y1 && isDigitCh y2 && isDigitCh y3 && isDigitCh y4 && s1 == '-' &&
    isDigitCh m1 && isDigitCh m2 && s2 == '-' && isDigitCh d1 && isDigitCh d2
  | _ => false

/-- The regex `example-\d+` (anchored) as a Boolean matcher. -/
def matchesExampleNum (s : String) : Bool :=
  (s.toList.take 8 == "example-".toList) && !(s.toList.drop 8).isEmpty &&
    (s.toList.drop 8).all isDigitCh


/-! ## Lemmas about `slugify` (claim C4) -/

theorem collapseRuns_mem (l : List Char) :
    ∀ b : Bool, ∀ c ∈ collapseRuns b l, isAlnumLower c = true ∨ c = '-' := by
  induction l with
  | nil => intro b c hc; simp [collapseRuns] at hc
  | cons x xs ih =>
    intro b c hc
    by_cases hx : isAlnumLower x
    · rw [collapseRuns, if_pos hx] at hc
      rcases List.mem_cons.mp hc with rfl | hc
      · exact Or.inl hx
      · exact ih false c hc
    · rw [collapseRuns, if_neg hx] at hc
      cases b with
      | true => exact ih true c (by simpa using hc)
      | false =>
        rcases List.mem_cons.mp (by simpa using hc) with rfl | hc'
        · exact Or.inr rfl
        · exact ih true c hc'

theorem collapseRuns_true_head (l : List Char) :
    ((collapseRuns true l).head?.all isAlnumLower) = true := by
  induction l with
  | nil => rfl
  | cons x xs ih =>
    by_cases hx : isAlnumLower x
    · simp [collapseRuns, hx]
    · simpa [collapseRuns, hx] using ih

theorem dropLead_collapse_head (l : List Char) :
    ((dropLeadHyphen (collapseRuns false l)).head?.all isAlnumLower) = true := by
  cases l with
  | nil => rfl
  | cons x xs =>
    by_cases hx : isAlnumLower x
    · have hxh : ¬ x = '-' := by
        intro h; subst h; exact absurd hx (by decide)
      simp [collapseRuns, hx, dropLeadHyphen, hxh]
    · simpa [collapseRuns, hx, dropLeadHyphen] using collapseRuns_true_head xs

theorem head_all_dropLast (l : List Char) (p : Char → Bool)
    (h : (l.head?.all p) = true) : ((l.dropLast).head?.all p) = true := by
  match l with
  | [] => exact h
  | [c] => simp
  | c1 :: c2 :: r => simpa using h

theorem head_all_dropTrail (l : List Char) (p : Char → Bool)
    (h : (l.head?.all p) = true) : ((dropTrailHyphen l).head?.all p) = true := by
  unfold dropTrailHyphen
  split
  · split
    · exact head_all_dropLast l p h
    · exact h
  · exact h

theorem head_all_take (n : Nat) (l : List Char) (p : Char → Bool)
    (h : (l.head?.all p) = true) : (((l.take n).head?.all p)) = true := by
  cases n with
  | zero => simp
  | succ m => cases l with
    | nil => simp
    | cons c r => simpa using h

theorem mem_dropLeadHyphen (l : List Char) (c : Char)
    (hc : c ∈ dropLeadHyphen l) : c ∈ l := by
  cases l with
  | nil => exact hc
  | cons x r =>
    rw [dropLeadHyphen] at hc
    by_cases hx : x = '-'
    · rw [if_pos hx] at hc; exact List.mem_cons_of_mem x hc
    · rwa [if_neg hx] at hc

theorem mem_dropTrailHyphen (l : List Char) (c : Char)
    (hc : c ∈ dropTrailHyphen l) : c ∈ l := by
  unfold dropTrailHyphen at hc
  split at hc
  · split at hc
    · exact List.dropLast_subset l hc
    · exact hc
  · exact hc

/-- C4, amended: `slugify "Hello, World!!" = "hello-world"`, `slugify "" = ""`,
every output has length at most 50, contains only lowercase letters, digits
and hyphens, and never starts with a hyphen (its first character, when any, is
a lowercase letter or digit). The original claim also ruled out a trailing
hyphen, but the truncation `text[:50]` runs after hyphen-trimming and can cut
right after a hyphen (see the counterexample), so only a leading hyphen is
impossible. -/
theorem c4_slugify_amended :
    slugify "Hello, World!!" = "hello-world" ∧ slugify "" = "" ∧
    ∀ s : String, (slugify s).length ≤ 50 ∧
      ((slugify s).toList.all fun c => isAlnumLower c || c == '-') = true ∧
      ((slugify s).toList.head?.all isAlnumLower) = true := by
  refine ⟨by decide, by decide, fun s => ⟨?_, ?_, ?_⟩⟩
  · show (List.take 50 _).length ≤ 50
    rw [List.length_take]
    exact Nat.min_le_left _ _
  · rw [List.all_eq_true]
    intro c hc
    have h1 : c ∈ dropTrailHyphen (dropLeadHyphen (collapseRuns false
        ((String.toList s).map Char.toLower))) := List.take_subset _ _ hc
    have h2 := mem_dropLeadHyphen _ c (mem_dropTrailHyphen _ c h1)
    rcases collapseRuns_mem _ false c h2 with h | h
    · simp [h]
    · simp [h]
  · exact head_all_take _ _ _ (head_all_dropTrail _ _ (dropLead_collapse_head _))

/-- C4, counterexample to the claim as stated: for this 51-character input
(26 letters separated by single spaces) the untruncated slug is 51 characters
long, and `[:50]` cuts immediately after a hyphen, so the returned slug ends
in a hyphen — contradicting that the output never has a trailing hyphen. -/
theorem c4_slugify_counterexample :
    (slugify "a a a a a a a a a a a a a a a a a a a a a a a a a a").length = 50 ∧
    (slugify "a a a a a a a a a a a a a a a a a a a a a a a a a a").toList.getLast?
      = some '-' := by
  exact ⟨by decide, by decide⟩

/-! ## Lemmas about the edit/validate loop (claims C1, C2, C10) -/

/-- Every invocation starts by writing its draft to a fresh temp file. -/
theorem open_in_editor_trace_head (data : JValue) (rounds : List Round) (d : Nat) :
    ((open_in_editor data rounds d).2).head? = some (.create d data) := by
  cases rounds with
  | nil => rfl
  | cons r rest =>
    rcases r with ⟨eok, ed, ans⟩
    cases eok
    · rfl
    · cases ed with
      | some v => rfl
      | none =>
        by_cases h : pyStripLower ans = "n"
        · simp [open_in_editor, h]
        · simp only [open_in_editor, if_pos rfl, if_neg h]
          cases hres : (open_in_editor data rest (d + 1)).1 <;> simp [hres]

/-- A finished loop leaves the live-file accumulator untouched: every temp
file it created was also unlinked, in nested order. -/
theorem open_in_editor_trace_balanced (rounds : List Round) :
    ∀ (data : JValue) (d : Nat) (acc : List Nat),
      (open_in_editor data rounds d).1 ≠ .outOfRounds →
      ((open_in_editor data rounds d).2).foldl liveStep acc = acc := by
  induction rounds with
  | nil => intro data d acc h; exact absurd rfl h
  | cons r rest ih =>
    intro data d acc h
    rcases r with ⟨eok, ed, ans⟩
    cases eok
    · simp [open_in_editor, liveStep]
    · cases ed with
      | some v => simp [open_in_editor, liveStep]
      | none =>
        by_cases hn : pyStripLower ans = "n"
        · simp [open_in_editor, hn, liveStep]
        · simp only [open_in_editor, if_pos rfl, if_neg hn] at h ⊢
          cases hres : (open_in_editor data rest (d + 1)).1 with
          | outOfRounds => rw [hres] at h; simp at h
          | confirmed v =>
            simp only [if_true, List.foldl_cons, List.foldl_append, liveStep]
            rw [ih data (d + 1) (d :: acc) (by rw [hres]; simp)]
            simp [liveStep]
          | aborted =>
            simp only [if_true, List.foldl_cons, List.foldl_append, liveStep]
            rw [ih data (d + 1) (d :: acc) (by rw [hres]; simp)]
            simp [liveStep]
          | editorFailed =>
            simp only [if_true, List.foldl_cons, List.foldl_append, liveStep]
            rw [ih data (d + 1) (d :: acc) (by rw [hres]; simp)]
            simp [liveStep]

/-- A finished invocation creates its temp file first and unlinks it last:
everything else (including a full recursive retry) happens in between. -/
theorem open_in_editor_trace_shape (data : JValue) (rounds : List Round) (d : Nat)
    (h : (open_in_editor data rounds d).1 ≠ .outOfRounds) :
    ∃ mid, (open_in_editor data rounds d).2
      = .create d data :: mid ++ [.unlink d] := by
  cases rounds with
  | nil => exact absurd rfl h
  | cons r rest =>
    rcases r with ⟨eok, ed, ans⟩
    cases eok
    · exact ⟨[], rfl⟩
    · cases ed with
      | some v => exact ⟨[], rfl⟩
      | none =>
        by_cases hn : pyStripLower ans = "n"
        · exact ⟨[], by simp [open_in_editor, hn]⟩
        · simp only [open_in_editor, if_pos rfl, if_neg hn] at h ⊢
          cases hres : (open_in_editor data rest (d + 1)).1 with
          | outOfRounds => rw [hres] at h; simp at h
          | confirmed v => exact ⟨(open_in_editor data rest (d + 1)).2, rfl⟩
          | aborted => exact ⟨(open_in_editor data rest (d + 1)).2, rfl⟩
          | editorFailed => exact ⟨(open_in_editor data rest (d + 1)).2, rfl⟩

/-- C1: for the edit/validate loop, a syntactically valid rewrite ends the
loop in the Confirmed state returning exactly the parsed mapping (with the
temp file created and removed); an invalid rewrite followed by an `n` answer
(after `strip().lower()`) ends the loop in the Aborted state with no mapping;
any other answer makes the loop behave exactly like a fresh invocation on the
original structuring-client output `data` — the next iteration serializes
`data` (not the broken edit) into its new temporary file, as its first trace
event shows. -/
theorem c1_edit_loop (data v : JValue) (ans : String) (rest : List Round) (d : Nat) :
    open_in_editor data (⟨true, some v, ans⟩ :: rest) d
        = (.confirmed v, [.create d data, .unlink d])
    ∧ (pyStripLower ans = "n" →
        open_in_editor data (⟨true, none, ans⟩ :: rest) d
          = (.aborted, [.create d data, .unlink d]))
    ∧ (pyStripLower ans ≠ "n" →
        (open_in_editor data (⟨true, none, ans⟩ :: rest) d).1
            = (open_in_editor data rest (d + 1)).1
          ∧ ((open_in_editor data rest (d + 1)).2).head?
            = some (.create (d + 1) data)) := by
  refine ⟨rfl, fun h => by simp [open_in_editor, h], fun h => ⟨?_, ?_⟩⟩
  · simp only [open_in_editor, if_pos rfl, if_neg h]
    cases hres : (open_in_editor data rest (d + 1)).1 <;> simp
  · exact open_in_editor_trace_head data rest (d + 1)

/-- C1 witness: at concrete inputs, a valid rewrite is returned verbatim, the
answer `N` (strip/lowercased to `n`) aborts, and the answer `y` retries from
the original draft. -/
theorem c1_edit_loop_witness :
    open_in_editor (.obj []) [⟨true, some (.num 1), "x"⟩] 0
        = (.confirmed (.num 1), [.create 0 (.obj []), .unlink 0])
    ∧ open_in_editor (.obj []) [⟨true, none, "N"⟩] 0
        = (.aborted, [.create 0 (.obj []), .unlink 0])
    ∧ (open_in_editor (.obj []) [⟨true, none, "y"⟩] 0).1
        = (open_in_editor (.obj []) [] 1).1 :=
  ⟨(c1_edit_loop (.obj []) (.num 1) "x" [] 0).1,
   (c1_edit_loop (.obj []) (.num 1) "N" [] 0).2.1 (by decide),
   ((c1_edit_loop (.obj []) (.num 1) "y" [] 0).2.2 (by decide)).1⟩

/-- C2, counterexample to the claim as stated: in a run whose first edit is
invalid JSON and is retried, the retry invocation creates its temp file
(trace position 1) while the first invocation's temp file is only unlinked at
trace position 3 — the `finally: os.unlink` runs after the recursive call
returns, so the file is NOT deleted before the invocation recurses, and two
temp files coexist during the retry. -/
theorem c2_cleanup_counterexample :
    ((open_in_editor (.obj [("title", .str "t")])
        [⟨true, none, "y"⟩, ⟨true, some (.obj []), ""⟩] 0).2).findIdx?
      (isCreateAt 1) = some 1
    ∧ ((open_in_editor (.obj [("title", .str "t")])
        [⟨true, none, "y"⟩, ⟨true, some (.obj []), ""⟩] 0).2).findIdx?
      (isUnlinkAt 0) = some 3 := by
  exact ⟨by decide, by decide⟩

/-- C2, amended: whenever an invocation of the loop finishes (is not still
blocked on the user), its own temp file is created first and unlinked last —
in particular it is deleted before the invocation returns or raises, though
only after any recursive retry inside it has completed — and after the loop
finishes no temp file created by any of its invocations remains on disk. -/
theorem c2_cleanup_amended (data : JValue) (rounds : List Round) (d : Nat)
    (h : (open_in_editor data rounds d).1 ≠ .outOfRounds) :
    (∃ mid, (open_in_editor data rounds d).2
        = .create d data :: mid ++ [.unlink d])
    ∧ liveAfter ((open_in_editor data rounds d).2) = [] :=
  ⟨open_in_editor_trace_shape data rounds d h,
   open_in_editor_trace_balanced rounds data d [] h⟩

/-- C2 witness: the amended cleanup statement at the concrete
counterexample run (one invalid edit, one retry, then success). -/
theorem c2_cleanup_amended_witness :
    (∃ mid, (open_in_editor (.obj [("title", .str "t")])
        [⟨true, none, "y"⟩, ⟨true, some (.obj []), ""⟩] 0).2
        = .create 0 (.obj [("title", .str "t")]) :: mid ++ [.unlink 0])
    ∧ liveAfter ((open_in_editor (.obj [("title", .str "t")])
        [⟨true, none, "y"⟩, ⟨true, some (.obj []), ""⟩] 0).2) = [] :=
  c2_cleanup_amended (.obj [("title", .str "t")])
    [⟨true, none, "y"⟩, ⟨true, some (.obj []), ""⟩] 0
    (fun hc => nomatch hc)

/-- C10: the loop performs no schema validation: any syntactically valid JSON
value — an empty array, `null`, the number 42, or an object without `title` —
is accepted as Confirmed and returned verbatim; `add_bit` then raises
(`TypeError` subscripting a non-dict, `KeyError` on the missing `title`)
with an empty effect list, i.e. before `data/bits.json` is ever written. -/
theorem c10_no_schema_validation :
    (∀ (data : JValue) (rest : List Round) (d : Nat) (a : String),
      (open_in_editor data (⟨true, some (.arr []), a⟩ :: rest) d).1
        = .confirmed (.arr []))
    ∧ (∀ (data : JValue) (rest : List Round) (d : Nat) (a : String),
      (open_in_editor data (⟨true, some .null, a⟩ :: rest) d).1
        = .confirmed .null)
    ∧ (∀ (data : JValue) (rest : List Round) (d : Nat) (a : String),
      (open_in_editor data (⟨true, some (.num 42), a⟩ :: rest) d).1
        = .confirmed (.num 42))
    ∧ (∀ (data : JValue) (rest : List Round) (d : Nat) (a : String),
      (open_in_editor data (⟨true, some (.obj [("url", .str "http://x")]), a⟩ :: rest) d).1
        = .confirmed (.obj [("url", .str "http://x")]))
    ∧ (∀ (bits : List JValue) (n : Nat) (t : Date) (r : Bool),
      add_bit (.ok bits) (.arr []) n t r = (.error .typeError, []))
    ∧ (∀ (bits : List JValue) (n : Nat) (t : Date) (r : Bool),
      add_bit (.ok bits) .null n t r = (.error .typeError, []))
    ∧ (∀ (bits : List JValue) (n : Nat) (t : Date) (r : Bool),
      add_bit (.ok bits) (.num 42) n t r = (.error .typeError, []))
    ∧ (∀ (bits : List JValue) (n : Nat) (t : Date) (r : Bool),
      add_bit (.ok bits) (.obj [("url", .str "http://x")]) n t r
        = (.error (.keyError "title"), [])) :=
  ⟨fun _ _ _ _ => rfl, fun _ _ _ _ => rfl, fun _ _ _ _ => rfl, fun _ _ _ _ => rfl,
   fun _ _ _ _ => rfl, fun _ _ _ _ => rfl, fun _ _ _ _ => rfl, fun _ _ _ _ => rfl⟩

/-! ## Lemmas about the store appender (claims C5, C6, C7) -/

theorem objLookup_delKey_self (kvs : List (String × JValue)) (k : String) :
    objLookup (delKey kvs k) k = none := by
  induction kvs with
  | nil => rfl
  | cons p rest ih =>
    rcases p with ⟨k', v⟩
    by_cases hk : k' = k
    · simp [delKey, hk] at ih ⊢
      exact ih
    · simpa [delKey, List.filter_cons, hk, objLookup] using ih

theorem objLookup_delKey_ne (kvs : List (String × JValue)) (k k' : String)
    (h : k ≠ k') : objLookup (delKey kvs k') k = objLookup kvs k := by
  have h' : ¬ k' = k := fun he => h he.symm
  induction kvs with
  | nil => rfl
  | cons p rest ih =>
    rcases p with ⟨k0, v⟩
    simp only [delKey] at ih ⊢
    by_cases hk : k0 = k'
    · subst hk
      simp [objLookup, h', ih]
    · simp only [List.filter_cons]
      by_cases h0 : k0 = k
      · simp [hk, h0, objLookup, h]
      · simp [hk, h0, objLookup, ih]

theorem objLookup_stripKey_ne (kvs : List (String × JValue)) (k k' : String)
    (h : k ≠ k') : objLookup (stripKeyIfFalsy kvs k') k = objLookup kvs k := by
  unfold stripKeyIfFalsy
  split
  · split
    · exact objLookup_delKey_ne kvs k k' h
    · rfl
  · rfl

/-- After the strip at `k`, a lookup of `k` never yields a falsy value. -/
theorem stripKey_good (kvs : List (String × JValue)) (k : String) :
    ∀ v, objLookup (stripKeyIfFalsy kvs k) k = some v → falsy v = false := by
  intro v hv
  unfold stripKeyIfFalsy at hv
  split at hv
  next w heq =>
    split at hv
    · rw [objLookup_delKey_self] at hv
      exact absurd hv (by simp)
    next hf =>
      rw [heq] at hv
      cases hv
      simpa using hf
  next heq =>
    rw [heq] at hv
    cases hv

/-- Stripping at `k` is the identity when the lookup of `k` is already never
falsy. -/
theorem stripKey_id (kvs : List (String × JValue)) (k : String)
    (h : ∀ v, objLookup kvs k = some v → falsy v = false) :
    stripKeyIfFalsy kvs k = kvs := by
  unfold stripKeyIfFalsy
  split
  next w heq => rw [if_neg (by simp [h w heq])]
  next heq => rfl

/-- The never-falsy property at `k` survives a strip at a different key. -/
theorem stripKey_good_preserved (kvs : List (String × JValue)) (k k' : String)
    (hk : k ≠ k') (h : ∀ v, objLookup kvs k = some v → falsy v = false) :
    ∀ v, objLookup (stripKeyIfFalsy kvs k') k = some v → falsy v = false := by
  intro v hv
  rw [objLookup_stripKey_ne kvs k k' hk] at hv
  exact h v hv

/-- `stripEmpty` is idempotent. -/
theorem stripEmpty_idem (kvs : List (String × JValue)) :
    stripEmpty (stripEmpty kvs) = stripEmpty kvs := by
  have hurl : ∀ v, objLookup (stripEmpty kvs) "url" = some v → falsy v = false := by
    unfold stripEmpty
    exact fun v hv =>
      stripKey_good_preserved _ "url" "tags" (by decide)
        (stripKey_good_preserved _ "url" "via" (by decide)
          (stripKey_good_preserved _ "url" "content" (by decide)
            (stripKey_good _ "url"))) v hv
  have hcontent : ∀ v, objLookup (stripEmpty kvs) "content" = some v → falsy v = false := by
    unfold stripEmpty
    exact fun v hv =>
      stripKey_good_preserved _ "content" "tags" (by decide)
        (stripKey_good_preserved _ "content" "via" (by decide)
          (stripKey_good _ "content")) v hv
  have hvia : ∀ v, objLookup (stripEmpty kvs) "via" = some v → falsy v = false := by
    unfold stripEmpty
    exact fun v hv =>
      stripKey_good_preserved _ "via" "tags" (by decide) (stripKey_good _ "via") v hv
  have htags : ∀ v, objLookup (stripEmpty kvs) "tags" = some v → falsy v = false :=
    stripKey_good _ "tags"
  show stripKeyIfFalsy (stripKeyIfFalsy (stripKeyIfFalsy (stripKeyIfFalsy
    (stripEmpty kvs) "url") "content") "via") "tags" = stripEmpty kvs
  rw [stripKey_id _ "url" hurl]
  rw [stripKey_id _ "content" hcontent]
  rw [stripKey_id _ "via" hvia]
  rw [stripKey_id _ "tags" htags]

theorem objLookup_objSet_self (kvs : List (String × JValue)) (k : String) (v : JValue) :
    objLookup (objSet kvs k v) k = some v := by
  induction kvs with
  | nil => simp [objSet, objLookup]
  | cons p rest ih =>
    rcases p with ⟨k0, w⟩
    by_cases hk : k0 = k
    · simp [objSet, hk, objLookup]
    · simp [objSet, hk, objLookup, ih]

theorem objLookup_objSet_ne (kvs : List (String × JValue)) (k k' : String)
    (v : JValue) (h : k ≠ k') : objLookup (objSet kvs k' v) k = objLookup kvs k := by
  have h' : ¬ k' = k := fun he => h he.symm
  induction kvs with
  | nil => simp [objSet, objLookup, h']
  | cons p rest ih =>
    rcases p with ⟨k0, w⟩
    by_cases hk : k0 = k'
    · subst hk
      simp [objSet, objLookup, h']
    · by_cases h0 : k0 = k
      · simp [objSet, hk, objLookup, h0, h]
      · simp [objSet, hk, objLookup, h0, ih]

/-- The strip at `k` removes the key when its value is falsy. -/
theorem stripKey_none_of_falsy (kvs : List (String × JValue)) (k : String)
    (v : JValue) (hv : objLookup kvs k = some v) (hf : falsy v = true) :
    objLookup (stripKeyIfFalsy kvs k) k = none := by
  unfold stripKeyIfFalsy
  split
  next w heq =>
    rw [hv] at heq
    cases heq
    rw [if_pos hf]
    exact objLookup_delKey_self kvs k
  next heq =>
    rw [hv] at heq
    cases heq

/-- `stripEmpty` removes each of `url`, `content`, `via`, `tags` whenever it
is present with a falsy value. -/
theorem stripEmpty_lookup_none (kvs : List (String × JValue)) (k : String)
    (v : JValue)
    (hmem : k = "url" ∨ k = "content" ∨ k = "via" ∨ k = "tags")
    (hv : objLookup kvs k = some v) (hf : falsy v = true) :
    objLookup (stripEmpty kvs) k = none := by
  unfold stripEmpty
  rcases hmem with rfl | rfl | rfl | rfl
  · rw [objLookup_stripKey_ne _ _ _ (by decide),
      objLookup_stripKey_ne _ _ _ (by decide),
      objLookup_stripKey_ne _ _ _ (by decide)]
    exact stripKey_none_of_falsy kvs _ v hv hf
  · rw [objLookup_stripKey_ne _ _ _ (by decide),
      objLookup_stripKey_ne _ _ _ (by decide)]
    exact stripKey_none_of_falsy _ _ v
      (by rw [objLookup_stripKey_ne _ _ _ (by decide)]; exact hv) hf
  · rw [objLookup_stripKey_ne _ _ _ (by decide)]
    exact stripKey_none_of_falsy _ _ v
      (by rw [objLookup_stripKey_ne _ _ _ (by decide),
        objLookup_stripKey_ne _ _ _ (by decide)]; exact hv) hf
  · exact stripKey_none_of_falsy _ _ v
      (by rw [objLookup_stripKey_ne _ _ _ (by decide),
        objLookup_stripKey_ne _ _ _ (by decide),
        objLookup_stripKey_ne _ _ _ (by decide)]; exact hv) hf

/-- `stripEmpty` leaves lookups of any other key alone. -/
theorem stripEmpty_lookup_other (kvs : List (String × JValue)) (k : String)
    (h1 : k ≠ "url") (h2 : k ≠ "content") (h3 : k ≠ "via") (h4 : k ≠ "tags") :
    objLookup (stripEmpty kvs) k = objLookup kvs k := by
  unfold stripEmpty
  rw [objLookup_stripKey_ne _ _ _ h4, objLookup_stripKey_ne _ _ _ h3,
    objLookup_stripKey_ne _ _ _ h2, objLookup_stripKey_ne _ _ _ h1]

/-- The record written by `add_bit` carries the derived `id`. -/
theorem finalizeBit_lookup_id (kvs : List (String × JValue)) (t : String)
    (nowMs : Nat) (today : Date) :
    objLookup (finalizeBit kvs t nowMs today) "id"
      = some (.str (slugify t ++ "-" ++ natDecimal nowMs)) := by
  unfold finalizeBit
  rw [stripEmpty_lookup_other _ _ (by decide) (by decide) (by decide) (by decide),
    objLookup_objSet_ne _ _ _ _ (by decide), objLookup_objSet_self]

/-- The record written by `add_bit` carries the derived `date`. -/
theorem finalizeBit_lookup_date (kvs : List (String × JValue)) (t : String)
    (nowMs : Nat) (today : Date) :
    objLookup (finalizeBit kvs t nowMs today) "date"
      = some (.str (strftimeYmd today)) := by
  unfold finalizeBit
  rw [stripEmpty_lookup_other _ _ (by decide) (by decide) (by decide) (by decide),
    objLookup_objSet_self]

/-- C5: after store-append processing, `url`, `content`, `via` and `tags` are
absent from the persisted record whenever they were present with a
falsy/empty value; in particular a mapping with `url=""` and `tags=[]` is
persisted (as the full `add_bit` run shows) with neither key present; and the
stripping step is idempotent. -/
theorem c5_strip_fields :
    (∀ kvs, stripEmpty (stripEmpty kvs) = stripEmpty kvs)
    ∧ (∀ (kvs : List (String × JValue)) (t : String) (n : Nat) (d : Date)
        (k : String) (v : JValue),
        (k = "url" ∨ k = "content" ∨ k = "via" ∨ k = "tags") →
        objLookup kvs k = some v → falsy v = true →
        objLookup (finalizeBit kvs t n d) k = none)
    ∧ add_bit (.ok [])
        (.obj [("title", .str "T"), ("url", .str ""), ("tags", .arr [])])
        5 ⟨2026, 10, 12⟩ true
      = (.ok (), [.writeStore [.obj [("title", .str "T"), ("id", .str "t-5"),
          ("date", .str "2026-10-12")]], .rebuildRun]) := by
  refine ⟨stripEmpty_idem, ?_, rfl⟩
  intro kvs t n d k v hmem hv hf
  unfold finalizeBit
  have hid : k ≠ "id" := by rcases hmem with rfl | rfl | rfl | rfl <;> decide
  have hdate : k ≠ "date" := by rcases hmem with rfl | rfl | rfl | rfl <;> decide
  exact stripEmpty_lookup_none _ k v hmem
    (by rw [objLookup_objSet_ne _ _ _ _ hdate, objLookup_objSet_ne _ _ _ _ hid]
        exact hv) hf

/-- C5 witness: the general absence statement evaluated on a concrete record
with an empty `url`. -/
theorem c5_strip_fields_witness :
    objLookup (finalizeBit [("title", .str "T"), ("url", .str "")] "T" 5
      ⟨2026, 10, 12⟩) "url" = none :=
  c5_strip_fields.2.1 [("title", .str "T"), ("url", .str "")] "T" 5
    ⟨2026, 10, 12⟩ "url" (.str "") (Or.inl rfl) rfl (by decide)

/-- C6: `add_bit` prepends the finalized record: the store write it performs
writes exactly the finalized bit consed onto the previous list, so every
previously persisted record stays present, unchanged and in its previous
relative order; concretely, appending `B2` after `B1` into an initially empty
store yields the order `[B2, B1]`. -/
theorem c6_prepend :
    (∀ (bits : List JValue) (kvs : List (String × JValue)) (t : String)
        (n : Nat) (d : Date) (r : Bool),
      objLookup kvs "title" = some (.str t) →
      (add_bit (.ok bits) (.obj kvs) n d r).2.head?
        = some (.writeStore (JValue.obj (finalizeBit kvs t n d) :: bits)))
    ∧ add_bit (.ok []) (.obj [("title", .str "B1")]) 1 ⟨2026, 10, 12⟩ true
      = (.ok (), [.writeStore [.obj [("title", .str "B1"), ("id", .str "b1-1"),
          ("date", .str "2026-10-12")]], .rebuildRun])
    ∧ add_bit (.ok [.obj [("title", .str "B1"), ("id", .str "b1-1"),
          ("date", .str "2026-10-12")]])
        (.obj [("title", .str "B2")]) 2 ⟨2026, 10, 12⟩ true
      = (.ok (), [.writeStore
          [.obj [("title", .str "B2"), ("id", .str "b2-2"),
            ("date", .str "2026-10-12")],
           .obj [("title", .str "B1"), ("id", .str "b1-1"),
            ("date", .str "2026-10-12")]], .rebuildRun]) := by
  refine ⟨?_, rfl, rfl⟩
  intro bits kvs t n d r h
  cases r <;> simp [add_bit, h]

/-- C6 witness: the general prepend statement evaluated on a concrete store
and bit. -/
theorem c6_prepend_witness :
    (add_bit (.ok [.num 7]) (.obj [("title", .str "B2")]) 2 ⟨2026, 10, 12⟩
      true).2.head?
      = some (.writeStore (JValue.obj (finalizeBit [("title", .str "B2")] "B2" 2
          ⟨2026, 10, 12⟩) :: [.num 7])) :=
  c6_prepend.1 [.num 7] [("title", .str "B2")] "B2" 2 ⟨2026, 10, 12⟩ true rfl

/-! ## Digit-string lemmas for the derived `id` and `date` (claim C7) -/

theorem isDigit_digitChar10 (n : Nat) : isDigitCh (digitChar10 n) = true := by
  unfold digitChar10
  split <;> decide

theorem natDigitsAux_isEmpty (fuel n : Nat) :
    (natDigitsAux (fuel + 1) n).isEmpty = false := by
  unfold natDigitsAux
  split
  · rfl
  · cases natDigitsAux fuel (n / 10) <;> rfl

theorem natDigitsAux_all_digits (fuel : Nat) :
    ∀ n, (natDigitsAux fuel n).all isDigitCh = true := by
  induction fuel with
  | zero => intro n; rfl
  | succ f ih =>
    intro n
    unfold natDigitsAux
    split
    · simp [isDigit_digitChar10]
    · simp [List.all_append, ih, isDigit_digitChar10]

theorem natDigitsAux_length (k : Nat) : ∀ fuel n, 10 ^ k ≤ n → n < 10 ^ (k + 1) →
    k < fuel → (natDigitsAux fuel n).length = k + 1 := by
  induction k with
  | zero =>
    intro fuel n h1 h2 hf
    match fuel, hf with
    | f + 1, _ =>
      unfold natDigitsAux
      rw [if_pos (by simpa using h2)]
      rfl
  | succ k ih =>
    intro fuel n h1 h2 hf
    match fuel, hf with
    | f + 1, hf =>
      have h10 : (10 : Nat) ≤ 10 ^ (k + 1) :=
        (pow_one 10).symm.trans_le (Nat.pow_le_pow_right (by norm_num) (by omega))
      have hn10 : ¬ n < 10 := by omega
      unfold natDigitsAux
      rw [if_neg hn10, List.length_append]
      have hdiv1 : 10 ^ k ≤ n / 10 := by
        rw [Nat.le_div_iff_mul_le (by norm_num)]
        calc 10 ^ k * 10 = 10 ^ (k + 1) := (pow_succ 10 k).symm
        _ ≤ n := h1
      have hdiv2 : n / 10 < 10 ^ (k + 1) := by
        rw [Nat.div_lt_iff_lt_mul (by norm_num)]
        calc n < 10 ^ (k + 1 + 1) := h2
        _ = 10 ^ (k + 1) * 10 := pow_succ 10 (k + 1)
      rw [ih f (n / 10) hdiv1 hdiv2 (by omega)]
      rfl

theorem list_length_four {α : Type} {l : List α} (h : l.length = 4) :
    ∃ a b c d, l = [a, b, c, d] := by
  rcases l with _ | ⟨a, _ | ⟨b, _ | ⟨c, _ | ⟨d, _ | ⟨e, t⟩⟩⟩⟩⟩
  · simp at h
  · simp at h
  · simp at h
  · simp at h
  · exact ⟨a, b, c, d, rfl⟩
  · simp at h

theorem string_toList_append (a b : String) :
    (a ++ b).toList = a.toList ++ b.toList := rfl

theorem take_len_append {α : Type} (l1 l2 : List α) (n : Nat)
    (h : l1.length = n) : (l1 ++ l2).take n = l1 := by
  subst h
  induction l1 with
  | nil => rfl
  | cons x xs ih => simp only [List.cons_append, List.length_cons,
      List.take_succ_cons, ih]

theorem drop_len_append {α : Type} (l1 l2 : List α) (n : Nat)
    (h : l1.length = n) : (l1 ++ l2).drop n = l2 := by
  subst h
  induction l1 with
  | nil => rfl
  | cons x xs ih => simpa only [List.cons_append, List.length_cons,
      List.drop_succ_cons] using ih

theorem natDecimal_year (y : Nat) (h1 : 1000 ≤ y) (h2 : y ≤ 9999) :
    ∃ a b c d, (natDecimal y).toList = [a, b, c, d] ∧ isDigitCh a = true ∧
      isDigitCh b = true ∧ isDigitCh c = true ∧ isDigitCh d = true := by
  have e3 : (10 : Nat) ^ 3 = 1000 := by norm_num
  have e4 : (10 : Nat) ^ (3 + 1) = 10000 := by norm_num
  have hlen : (natDigitsAux (y + 1) y).length = 4 :=
    natDigitsAux_length 3 (y + 1) y (by omega) (by omega) (by omega)
  obtain ⟨a, b, c, d, habcd⟩ := list_length_four hlen
  have hall := natDigitsAux_all_digits (y + 1) y
  rw [habcd] at hall
  simp only [List.all_cons, List.all_nil, Bool.and_eq_true, Bool.and_true] at hall
  exact ⟨a, b, c, d, habcd, hall.1, hall.2.1, hall.2.2.1, hall.2.2.2⟩

theorem pad2_digits (m : Nat) (h : m ≤ 99) :
    ∃ c1 c2, (pad2 m).toList = [c1, c2] ∧ isDigitCh c1 = true ∧
      isDigitCh c2 = true := by
  by_cases hm : m < 10
  · refine ⟨'0', digitChar10 m, ?_, by decide, isDigit_digitChar10 m⟩
    unfold pad2
    rw [if_pos hm]
    rw [string_toList_append]
    have hone : (natDecimal m).toList = [digitChar10 m] := by
      show natDigitsAux (m + 1) m = [digitChar10 m]
      unfold natDigitsAux
      rw [if_pos hm]
    rw [hone]
    rfl
  · have e1 : (10 : Nat) ^ 1 = 10 := by norm_num
    have e2 : (10 : Nat) ^ (1 + 1) = 100 := by norm_num
    have hlen : (natDigitsAux (m + 1) m).length = 2 :=
      natDigitsAux_length 1 (m + 1) m (by omega) (by omega) (by omega)
    obtain ⟨c1, c2, hc⟩ := List.length_eq_two.mp hlen
    have hall := natDigitsAux_all_digits (m + 1) m
    rw [hc] at hall
    simp only [List.all_cons, List.all_nil, Bool.and_eq_true, Bool.and_true] at hall
    refine ⟨c1, c2, ?_, hall.1, hall.2⟩
    unfold pad2
    rw [if_neg hm]
    exact hc

theorem strftimeYmd_matches (d : Date) (hy1 : 1000 ≤ d.year)
    (hy2 : d.year ≤ 9999) (hm : d.month ≤ 99) (hd : d.day ≤ 99) :
    matchesYmd (strftimeYmd d) = true := by
  obtain ⟨a, b, c, e, hy, ha, hb, hc, he⟩ := natDecimal_year d.year hy1 hy2
  obtain ⟨m1, m2, hmm, hm1, hm2⟩ := pad2_digits d.month hm
  obtain ⟨d1, d2, hdd, hd1, hd2⟩ := pad2_digits d.day hd
  have hdash : ("-" : String).toList = ['-'] := rfl
  unfold matchesYmd strftimeYmd
  rw [string_toList_append, string_toList_append, string_toList_append,
    string_toList_append, hy, hmm, hdd, hdash]
  simp only [List.cons_append, List.nil_append, List.append_nil]
  simp [ha, hb, hc, he, hm1, hm2, hd1, hd2]

theorem exampleNum_matches (n : Nat) :
    matchesExampleNum ("example-" ++ natDecimal n) = true := by
  have hlen8 : ("example-".toList).length = 8 := by decide
  unfold matchesExampleNum
  rw [string_toList_append, take_len_append _ _ _ hlen8,
    drop_len_append _ _ _ hlen8]
  have hne : ((natDecimal n).toList).isEmpty = false := natDigitsAux_isEmpty n n
  have hall : ((natDecimal n).toList).all isDigitCh = true :=
    natDigitsAux_all_digits (n + 1) n
  rw [hne, hall]
  simp

/-- C7: the store appender derives `id` as `slugify(title) + "-" + unixtime
milliseconds` and `date` as the current calendar date in `YYYY-MM-DD` form;
for a bit titled `Example` the id matches `example-` followed by one or more
digits, and the date matches four digits, dash, two digits, dash, two digits. -/
theorem c7_id_date (kvs : List (String × JValue)) (nowMs : Nat) (today : Date)
    (hy1 : 1000 ≤ today.year) (hy2 : today.year ≤ 9999)
    (hm : today.month ≤ 99) (hd : today.day ≤ 99) :
    (∀ t, objLookup (finalizeBit kvs t nowMs today) "id"
        = some (.str (slugify t ++ "-" ++ natDecimal nowMs)))
    ∧ (∀ t, objLookup (finalizeBit kvs t nowMs today) "date"
        = some (.str (strftimeYmd today)))
    ∧ matchesExampleNum (slugify "Example" ++ "-" ++ natDecimal nowMs) = true
    ∧ matchesYmd (strftimeYmd today) = true := by
  refine ⟨fun t => finalizeBit_lookup_id kvs t nowMs today,
    fun t => finalizeBit_lookup_date kvs t nowMs today, ?_,
    strftimeYmd_matches today hy1 hy2 hm hd⟩
  have hslug : slugify "Example" = "example" := by decide
  have happ : (slugify "Example" ++ "-" : String) = "example-" := by
    rw [hslug]; decide
  rw [happ]
  exact exampleNum_matches nowMs

/-- C7 witness: the id/date derivation at a concrete record, clock reading
and calendar date. -/
theorem c7_id_date_witness :
    objLookup (finalizeBit [("title", .str "Example")] "Example" 3
        ⟨2026, 10, 12⟩) "id" = some (.str "example-3")
    ∧ matchesExampleNum (slugify "Example" ++ "-" ++ natDecimal 3) = true
    ∧ matchesYmd (strftimeYmd ⟨2026, 10, 12⟩) = true := by
  obtain ⟨h1, h2, h3, h4⟩ := c7_id_date [("title", .str "Example")] 3
    ⟨2026, 10, 12⟩ (by decide) (by decide) (by decide) (by decide)
  exact ⟨by rw [h1 "Example",
    show (slugify "Example" ++ "-" ++ natDecimal 3 : String) = "example-3" from
      by decide], h3, h4⟩

/-! ## Driver-level claims (C3, C8, C9) -/

/-- C3: on every run that ends before the final confirmed store-append —
missing key, empty input, structuring failure, editor failure, edit-loop
abort, or a decline at the final confirmation — `mainRun` performs no effects
at all, so `data/bits.json` is untouched; and conversely any run that writes
the store at all passed the whole pipeline: key present, non-empty input, a
structured bit, a Confirmed edit loop, and an explicit non-`n` confirmation. -/
theorem c3_store_only_after_confirm (env : Env) :
    (env.apiKeyPresent = false → (mainRun env).2 = [])
    ∧ (pyStrip env.inputText = "" → (mainRun env).2 = [])
    ∧ (∀ e, structure_with_claude env.inputText env.claudeResp = .error e →
        (mainRun env).2 = [])
    ∧ (∀ b, structure_with_claude env.inputText env.claudeResp = .ok b →
        (open_in_editor b env.rounds 0).1 = .editorFailed → (mainRun env).2 = [])
    ∧ (∀ b, structure_with_claude env.inputText env.claudeResp = .ok b →
        (open_in_editor b env.rounds 0).1 = .aborted → (mainRun env).2 = [])
    ∧ (pyStripLower env.confirmAnswer = "n" → (mainRun env).2 = [])
    ∧ ((mainRun env).2.any isWrite = true →
        env.apiKeyPresent = true ∧ pyStrip env.inputText ≠ "" ∧
        pyStripLower env.confirmAnswer ≠ "n" ∧
        ∃ b, structure_with_claude env.inputText env.claudeResp = .ok b ∧
          ∃ v, (open_in_editor b env.rounds 0).1 = .confirmed v) := by
  refine ⟨?_, ?_, ?_, ?_, ?_, ?_, ?_⟩
  · intro h
    simp [mainRun, h]
  · intro h
    by_cases ha : env.apiKeyPresent <;> simp [mainRun, ha, h]
  · intro e h
    by_cases ha : env.apiKeyPresent <;>
      by_cases hs : pyStrip env.inputText = "" <;> simp [mainRun, ha, hs, h]
  · intro b hb hl
    by_cases ha : env.apiKeyPresent <;>
      by_cases hs : pyStrip env.inputText = "" <;> simp [mainRun, ha, hs, hb, hl]
  · intro b hb hl
    by_cases ha : env.apiKeyPresent <;>
      by_cases hs : pyStrip env.inputText = "" <;> simp [mainRun, ha, hs, hb, hl]
  · intro h
    by_cases ha : env.apiKeyPresent
    · by_cases hs : pyStrip env.inputText = ""
      · simp [mainRun, ha, hs]
      · cases hb : structure_with_claude env.inputText env.claudeResp with
        | error e => simp [mainRun, ha, hs, hb]
        | ok b =>
          cases hl : (open_in_editor b env.rounds 0).1 <;>
            simp [mainRun, ha, hs, hb, hl, h]
    · simp [mainRun, ha]
  · intro hw
    by_cases ha : env.apiKeyPresent
    · by_cases hs : pyStrip env.inputText = ""
      · simp [mainRun, ha, hs] at hw
      · cases hb : structure_with_claude env.inputText env.claudeResp with
        | error e => simp [mainRun, ha, hs, hb] at hw
        | ok b =>
          cases hl : (open_in_editor b env.rounds 0).1 with
          | editorFailed => simp [mainRun, ha, hs, hb, hl] at hw
          | aborted => simp [mainRun, ha, hs, hb, hl] at hw
          | outOfRounds => simp [mainRun, ha, hs, hb, hl] at hw
          | confirmed v =>
            by_cases hc : pyStripLower env.confirmAnswer = "n"
            · simp [mainRun, ha, hs, hb, hl, hc] at hw
            · exact ⟨ha, hs, hc, b, rfl, v, hl⟩
    · simp [mainRun, ha] at hw

/-- C3 witness: a run that reaches the final prompt and is declined with `n`
leaves the effect list — hence the store — empty. -/
theorem c3_store_only_after_confirm_witness :
    (mainRun ⟨true, "x", .ok [.toolUse (.obj [("title", .str "t")])],
      [⟨true, some (.obj [("title", .str "t")]), ""⟩], .ok [], "n", 1,
      ⟨2026, 10, 12⟩, true⟩).2 = [] := by
  obtain ⟨-, -, -, -, -, h6, -⟩ := c3_store_only_after_confirm
    ⟨true, "x", .ok [.toolUse (.obj [("title", .str "t")])],
      [⟨true, some (.obj [("title", .str "t")]), ""⟩], .ok [], "n", 1,
      ⟨2026, 10, 12⟩, true⟩
  exact h6 (by decide)

/-- C8, counterexample to the claim as stated: declining to re-edit after a
parse failure executes `raise SystemExit("Aborted")`; since the argument is a
string, CPython prints it and the process exits with status 1, not 0 — so not
every user-initiated abort terminates with exit code 0. -/
theorem c8_abort_exit_counterexample :
    exitCodeOf (mainRun ⟨true, "x", .ok [.toolUse (.obj [("title", .str "t")])],
      [⟨true, none, "n"⟩], .ok [], "y", 1, ⟨2026, 10, 12⟩, true⟩).1 = some 1
    ∧ (mainRun ⟨true, "x", .ok [.toolUse (.obj [("title", .str "t")])],
      [⟨true, none, "n"⟩], .ok [], "y", 1, ⟨2026, 10, 12⟩, true⟩).1
      ≠ .exited 0 := by
  exact ⟨rfl, by decide⟩

/-- C8, amended: declining at the final confirmation prompt exits with code
0; declining to re-edit raises `SystemExit("Aborted")`, whose string argument
makes CPython print the message and terminate with exit code 1; exit code 1
is likewise what results from a missing API key, a structuring failure, a
failed editor subprocess, and any error propagating out of `add_bit`
(missing store, bad record, failed rebuild). -/
theorem c8_exit_codes_amended (env : Env) :
    (env.apiKeyPresent = false → mainRun env = (.exited 1, []))
    ∧ (∀ e, structure_with_claude env.inputText env.claudeResp = .error e →
        env.apiKeyPresent = true → pyStrip env.inputText ≠ "" →
        mainRun env = (.exited 1, []))
    ∧ (∀ b, env.apiKeyPresent = true → pyStrip env.inputText ≠ "" →
        structure_with_claude env.inputText env.claudeResp = .ok b →
        (open_in_editor b env.rounds 0).1 = .editorFailed →
        (mainRun env).1 = .uncaught .calledProcessError
          ∧ exitCodeOf (mainRun env).1 = some 1)
    ∧ (∀ b, env.apiKeyPresent = true → pyStrip env.inputText ≠ "" →
        structure_with_claude env.inputText env.claudeResp = .ok b →
        (open_in_editor b env.rounds 0).1 = .aborted →
        (mainRun env).1 = .uncaught (.systemExit "Aborted")
          ∧ exitCodeOf (mainRun env).1 = some 1)
    ∧ (∀ b v, env.apiKeyPresent = true → pyStrip env.inputText ≠ "" →
        structure_with_claude env.inputText env.claudeResp = .ok b →
        (open_in_editor b env.rounds 0).1 = .confirmed v →
        pyStripLower env.confirmAnswer = "n" →
        mainRun env = (.exited 0, []))
    ∧ (∀ b v e effs, env.apiKeyPresent = true → pyStrip env.inputText ≠ "" →
        structure_with_claude env.inputText env.claudeResp = .ok b →
        (open_in_editor b env.rounds 0).1 = .confirmed v →
        pyStripLower env.confirmAnswer ≠ "n" →
        add_bit env.storeFile v env.nowMs env.today env.rebuildOk
          = (.error e, effs) →
        (mainRun env).1 = .uncaught e ∧ exitCodeOf (mainRun env).1 = some 1) := by
  refine ⟨?_, ?_, ?_, ?_, ?_, ?_⟩
  · intro h
    simp [mainRun, h]
  · intro e h ha hs
    simp [mainRun, ha, hs, h]
  · intro b ha hs hb hl
    constructor
    · simp [mainRun, ha, hs, hb, hl]
    · simp [mainRun, ha, hs, hb, hl, exitCodeOf]
  · intro b ha hs hb hl
    constructor
    · simp [mainRun, ha, hs, hb, hl]
    · simp [mainRun, ha, hs, hb, hl, exitCodeOf]
  · intro b v ha hs hb hl hc
    simp [mainRun, ha, hs, hb, hl, hc]
  · intro b v e effs ha hs hb hl hc hadd
    constructor
    · simp [mainRun, ha, hs, hb, hl, hc, hadd]
    · simp [mainRun, ha, hs, hb, hl, hc, hadd, exitCodeOf]

/-- C8 witness: the amended exit-code statement at two concrete runs — a
decline at the final prompt (exit 0) and a decline to re-edit (exit 1). -/
theorem c8_exit_codes_amended_witness :
    mainRun ⟨true, "x", .ok [.toolUse (.obj [("title", .str "t")])],
      [⟨true, some (.obj [("title", .str "t")]), ""⟩], .ok [], "n", 1,
      ⟨2026, 10, 12⟩, true⟩ = (.exited 0, [])
    ∧ exitCodeOf (mainRun ⟨true, "x", .ok [.toolUse (.obj [("title", .str "t")])],
      [⟨true, none, "N"⟩], .ok [], "y", 1, ⟨2026, 10, 12⟩, true⟩).1 = some 1 := by
  constructor
  · exact (c8_exit_codes_amended ⟨true, "x",
      .ok [.toolUse (.obj [("title", .str "t")])],
      [⟨true, some (.obj [("title", .str "t")]), ""⟩], .ok [], "n", 1,
      ⟨2026, 10, 12⟩, true⟩).2.2.2.2.1 (.obj [("title", .str "t")])
      (.obj [("title", .str "t")]) rfl (by decide) rfl rfl (by decide)
  · exact ((c8_exit_codes_amended ⟨true, "x",
      .ok [.toolUse (.obj [("title", .str "t")])],
      [⟨true, none, "N"⟩], .ok [], "y", 1, ⟨2026, 10, 12⟩, true⟩).2.2.2.1
      (.obj [("title", .str "t")]) rfl (by decide) rfl rfl).2

/-- C9, counterexample to the claim as stated: for a non-empty input, an API
response whose `tool_use` input has an empty `title` is returned verbatim —
the code performs no validation, so the structuring step does not guarantee a
non-empty `title` for every non-empty input. -/
theorem c9_title_counterexample :
    structure_with_claude "some nonempty input"
        (.ok [.toolUse (.obj [("title", .str "")])])
      = .ok (.obj [("title", .str "")])
    ∧ objLookup [("title", JValue.str "")] "title" = some (.str "")
    ∧ falsy (.str "") = true
    ∧ pyStrip "some nonempty input" ≠ "" := by
  exact ⟨rfl, rfl, by decide, by decide⟩

/-- C9, amended: `structure_with_claude` returns the first `tool_use` input
of the API response exactly as provided (raising `ValueError` when there is
none, and propagating an API failure); its output therefore contains a
non-empty `title` only when the response does — the code itself enforces
nothing about `title`. -/
theorem c9_passthrough_amended (text : String) (blocks : List Block) :
    (∀ v, firstToolUse blocks = some v →
      structure_with_claude text (.ok blocks) = .ok v)
    ∧ (firstToolUse blocks = none →
      structure_with_claude text (.ok blocks) = .error .valueError)
    ∧ structure_with_claude text (.error ()) = .error .apiError := by
  refine ⟨fun v hv => ?_, fun hv => ?_, rfl⟩
  · simp [structure_with_claude, hv]
  · simp [structure_with_claude, hv]

/-- C9 witness: the pass-through statement at a concrete response. -/
theorem c9_passthrough_amended_witness :
    structure_with_claude "x" (.ok [.toolUse (.num 5)]) = .ok (.num 5) :=
  (c9_passthrough_amended "x" [.toolUse (.num 5)]).1 (.num 5) rfl
